import Mathlib

/-!
A shallow embedding of the core of the Condor UDP middleware, covering
the unit converter (condor_udp_middleware/core/converter.py) and the
receiver / bridge orchestration (condor_udp_middleware/core/bridge.py),
together with theorems checking the natural language specification
against this embedding.

Python float values are modelled as exact scaled decimals (see `Dec`):
every numeric literal the converter multiplies with (the conversion
factor table) and every numeric token matched by the key=value regex is
a decimal string, and the only arithmetic performed on telemetry values
is one multiplication by such a factor, which is exact on this
representation.  Stateful code is modelled by explicit state passing;
the statistics counters of the receiver and bridge are fields of
explicit state records.  Exceptions are modelled with `Except` where a
claim depends on them.
-/

namespace CondorUDP

/-- Exact decimal number `m * 10 ^ e` with integer mantissa and integer
decimal exponent.  This is the value representation used for the Python
floats flowing through `UnitConverter`. -/
structure Dec where
  m : ℤ
  e : ℤ
deriving DecidableEq, Repr

/-- Exact multiplication of scaled decimals; models the Python
expression `value * factor` in the `_convert_*` methods. -/
def Dec.mul (a b : Dec) : Dec := ⟨a.m * b.m, a.e + b.e⟩

/-- Semantic (rational) value of a scaled decimal. -/
def Dec.toRat (a : Dec) : ℚ := (a.m : ℚ) * (10 : ℚ) ^ a.e

/-- The four conversion categories, the values of the
`variable_mappings` dictionary in `UnitConverter.__init__`. -/
inductive Category where
  | altitude
  | speed
  | vario
  | acceleration
deriving DecidableEq, Repr

/-- The `variable_mappings` dictionary of `UnitConverter.__init__`:
which variable names are subject to which conversion category. -/
def variable_mappings (v : String) : Option Category :=
  if v = "altitude" ∨ v = "height" ∨ v = "wheelheight" then some .altitude
  else if v = "airspeed" ∨ v = "vx" ∨ v = "vy" ∨ v = "vz" then some .speed
  else if v = "vario" ∨ v = "evario" ∨ v = "nettovario" then some .vario
  else if v = "ax" ∨ v = "ay" ∨ v = "az" then some .acceleration
  else none

/- The `conversion_factors` table of `UnitConverter.__init__`, as exact
decimals.  The `*_to_*` keys of the Python dictionary become one
definition each; the reverse factors are present in the source table but
are never used by the `_convert_*` methods. -/

/-- conversion_factors["altitude"]["meters_to_feet"] = 3.28084 -/
def meters_to_feet : Dec := ⟨328084, -5⟩

/-- conversion_factors["altitude"]["feet_to_meters"] = 0.3048 (unused) -/
def feet_to_meters : Dec := ⟨3048, -4⟩

/-- conversion_factors["speed"]["mps_to_kmh"] = 3.6 -/
def mps_to_kmh : Dec := ⟨36, -1⟩

/-- conversion_factors["speed"]["mps_to_knots"] = 1.94384 -/
def mps_to_knots : Dec := ⟨194384, -5⟩

/-- conversion_factors["speed"]["kmh_to_mps"] = 0.277778 (unused) -/
def kmh_to_mps : Dec := ⟨277778, -6⟩

/-- conversion_factors["speed"]["kmh_to_knots"] = 0.539957 (unused) -/
def kmh_to_knots : Dec := ⟨539957, -6⟩

/-- conversion_factors["speed"]["knots_to_mps"] = 0.514444 (unused) -/
def knots_to_mps : Dec := ⟨514444, -6⟩

/-- conversion_factors["speed"]["knots_to_kmh"] = 1.852 (unused) -/
def knots_to_kmh : Dec := ⟨1852, -3⟩

/-- conversion_factors["vario"]["mps_to_fpm"] = 196.85 -/
def mps_to_fpm : Dec := ⟨19685, -2⟩

/-- conversion_factors["vario"]["fpm_to_mps"] = 0.00508 (unused) -/
def fpm_to_mps : Dec := ⟨508, -5⟩

/-- conversion_factors["acceleration"]["mps2_to_fps2"] = 3.28084 -/
def mps2_to_fps2 : Dec := ⟨328084, -5⟩

/-- conversion_factors["acceleration"]["fps2_to_mps2"] = 0.3048 (unused) -/
def fps2_to_mps2 : Dec := ⟨3048, -4⟩

/-- The `conversion_settings` dictionary held by `UnitConverter`.  The
bridge always populates the five keys, but the converter reads them with
`dict.get`, so each key is modelled as optional; `none` models an absent
key. -/
structure ConversionSettings where
  enabled : Option Bool
  altitude : Option String
  speed : Option String
  vario : Option String
  acceleration : Option String
deriving DecidableEq, Repr

/-- `self.conversion_settings.get(conversion_type)` in
`_apply_conversions`: look up the target unit configured for a
category. -/
def ConversionSettings.get (s : ConversionSettings) : Category → Option String
  | .altitude => s.altitude
  | .speed => s.speed
  | .vario => s.vario
  | .acceleration => s.acceleration

/-- `self.conversion_settings.get("enabled", True)` in
`_apply_conversions`, with the Python default for a missing key. -/
def ConversionSettings.enabledFlag (s : ConversionSettings) : Bool :=
  s.enabled.getD true

/-- Result of one `_convert_altitude` / `_convert_speed` /
`_convert_vario` / `_convert_acceleration` call: the Python pair
`(converted_value, was_converted)` plus a flag recording whether the
call issued a `logger.warning` (the unknown-unit `else` branch). -/
structure ConvertResult where
  value : Dec
  applied : Bool
  warned : Bool
deriving DecidableEq, Repr

/-- `UnitConverter._convert_altitude`. -/
def convert_altitude (value : Dec) (target_unit : String) : ConvertResult :=
  if target_unit = "meters" then ⟨value, false, false⟩
  else if target_unit = "feet" then ⟨value.mul meters_to_feet, true, false⟩
  else ⟨value, false, true⟩

/-- `UnitConverter._convert_speed`. -/
def convert_speed (value : Dec) (target_unit : String) : ConvertResult :=
  if target_unit = "mps" then ⟨value, false, false⟩
  else if target_unit = "kmh" then ⟨value.mul mps_to_kmh, true, false⟩
  else if target_unit = "knots" then ⟨value.mul mps_to_knots, true, false⟩
  else ⟨value, false, true⟩

/-- `UnitConverter._convert_vario`. -/
def convert_vario (value : Dec) (target_unit : String) : ConvertResult :=
  if target_unit = "mps" then ⟨value, false, false⟩
  else if target_unit = "fpm" then ⟨value.mul mps_to_fpm, true, false⟩
  else ⟨value, false, true⟩

/-- `UnitConverter._convert_acceleration`. -/
def convert_acceleration (value : Dec) (target_unit : String) : ConvertResult :=
  if target_unit = "mps2" then ⟨value, false, false⟩
  else if target_unit = "fps2" then ⟨value.mul mps2_to_fps2, true, false⟩
  else ⟨value, false, true⟩

/-- `UnitConverter._convert_variable`: dispatch on the conversion
category.  The category is an element of the `Category` type, so the
unknown-conversion-type fallback of the Python code is unreachable
here; the per-variable `except` clause has no counterpart because the
branches are total functions. -/
def convert_variable (value : Dec) (c : Category) (target_unit : String) :
    ConvertResult :=
  match c with
  | .altitude => convert_altitude value target_unit
  | .speed => convert_speed value target_unit
  | .vario => convert_vario value target_unit
  | .acceleration => convert_acceleration value target_unit

/-- The per-message `conversion_info` dictionary built by
`_apply_conversions` (`conversions_detail` is reproduced by the
`variables_converted` list together with `convertPair`, and is not
modelled separately). -/
structure ConversionInfo where
  conversions_applied : ℕ
  variables_converted : List String
deriving DecidableEq, Repr

/-- One iteration of the `for variable, value in data.items()` loop in
`_apply_conversions`, for the pair `(k, v)`, under the
`conversion_settings` object `s` observed by that iteration: the new
value stored for `k` and whether a conversion was counted.  When no
conversion applies the dictionary entry keeps its original value. -/
def convertPair (s : ConversionSettings) (k : String) (v : Dec) : Dec × Bool :=
  match variable_mappings k with
  | none => (v, false)
  | some c =>
    match s.get c with
    | none => (v, false)
    | some t =>
      if t = "" then (v, false)
      else
        let r := convert_variable v c t
        if r.applied then (r.value, true) else (v, false)

/-- The loop of `_apply_conversions` over the (insertion ordered, key
unique) entries of the data dictionary.  Each iteration performs a
fresh attribute read of `self.conversion_settings` (line
`target_unit = self.conversion_settings.get(conversion_type)`), so the
settings object observed by iteration `i` is passed explicitly as
`reads i`: a concurrent `update_settings` call rebinds the attribute
and later iterations then observe the new object. -/
def applyConversionsAux (reads : ℕ → ConversionSettings) :
    ℕ → List (String × Dec) → List (String × Dec) × ConversionInfo
  | _, [] => ([], ⟨0, []⟩)
  | i, (k, v) :: rest =>
    let p := convertPair (reads i) k v
    let r := applyConversionsAux reads (i + 1) rest
    ((k, p.1) :: r.1,
     ⟨(if p.2 then 1 else 0) + r.2.conversions_applied,
      (if p.2 then [k] else []) ++ r.2.variables_converted⟩)

/-- `UnitConverter._apply_conversions` with the sequence of values
observed by its successive reads of `self.conversion_settings` made
explicit: read number 0 is the `enabled` check before the loop, read
number `i + 1` is the target unit lookup of loop iteration `i`. -/
def apply_conversions_trace (reads : ℕ → ConversionSettings)
    (data : List (String × Dec)) : List (String × Dec) × ConversionInfo :=
  if (reads 0).enabledFlag = false then (data, ⟨0, []⟩)
  else applyConversionsAux reads 1 data

/-- `UnitConverter._apply_conversions` in the absence of concurrent
settings updates: every read observes the same settings object. -/
def apply_conversions (s : ConversionSettings) (data : List (String × Dec)) :
    List (String × Dec) × ConversionInfo :=
  apply_conversions_trace (fun _ => s) data

/-- Character class of the identifier part `[a-zA-Z_]+` of the
`kv_pattern` regex. -/
def isIdentChar (c : Char) : Bool := c.isAlpha || c = '_'

/-- Numeric value of a list of decimal digit characters, most
significant first. -/
def digitsToNat (ds : List Char) : ℕ :=
  ds.foldl (fun n c => 10 * n + (c.toNat - 48)) 0

/-- The optional sign `[-+]?` at the start of the number part of
`kv_pattern` (also used for the exponent sign).  Greedy: a present sign
is consumed.  A backtrack to the empty alternative can never make the
rest of the number match (a mantissa never starts with a sign
character), so no backtracking is modelled. -/
def matchSign : List Char → ℤ × List Char
  | '-' :: rest => (-1, rest)
  | '+' :: rest => (1, rest)
  | cs => (1, cs)

/-- The mantissa `[0-9]*\.?[0-9]+` of `kv_pattern` with Python regex
(greedy, backtracking) semantics, resolved by case analysis: with `d1`
the maximal digit run at the current position, the regex matches
`d1 . d2` when a dot followed by a nonempty maximal digit run `d2`
follows `d1`; otherwise it matches `d1` alone when `d1` is nonempty
(the optional dot backtracks to empty and `[0-9]+` takes the last digit
of `d1`); otherwise it fails.  Returns the digit value, the number of
fractional digits, and the remaining input. -/
def matchMantissa (cs : List Char) : Option ((ℕ × ℕ) × List Char) :=
  let d1 := cs.takeWhile Char.isDigit
  let r1 := cs.drop d1.length
  match r1 with
  | '.' :: r2 =>
    let d2 := r2.takeWhile Char.isDigit
    if d2.length = 0 then
      if d1.length = 0 then none
      else some ((digitsToNat d1, 0), r1)
    else some ((digitsToNat (d1 ++ d2), d2.length), r2.drop d2.length)
  | _ =>
    if d1.length = 0 then none else some ((digitsToNat d1, 0), r1)

/-- The optional exponent group `(?:[eE][-+]?[0-9]+)?` of `kv_pattern`:
an `e` or `E`, an optional sign and a nonempty maximal digit run.  When
any part is missing the whole group matches empty (the caller keeps its
position before the `e`). -/
def matchExp (cs : List Char) : Option (ℤ × List Char) :=
  match cs with
  | c :: rest =>
    if c = 'e' ∨ c = 'E' then
      let sr := matchSign rest
      let ed := sr.2.takeWhile Char.isDigit
      if ed.length = 0 then none
      else some (sr.1 * (digitsToNat ed : ℤ), sr.2.drop ed.length)
    else none
  | [] => none

/-- The full number part of `kv_pattern`
(`[-+]?[0-9]*\.?[0-9]+(?:[eE][-+]?[0-9]+)?`), returning its exact
decimal value: sign times `d1.d2` scaled by ten to the exponent. -/
def matchNumber (cs : List Char) : Option (Dec × List Char) :=
  let s := matchSign cs
  match matchMantissa s.2 with
  | none => none
  | some (md, r) =>
    let m : ℤ := s.1 * (md.1 : ℤ)
    match matchExp r with
    | some (ex, r2) => some (⟨m, ex - (md.2 : ℤ)⟩, r2)
    | none => some (⟨m, -(md.2 : ℤ)⟩, r)

/-- One attempted match of `kv_pattern` at the current position: a
nonempty maximal run of identifier characters, an `=` sign, then a
number.  Backtracking inside `[a-zA-Z_]+` only moves another identifier
character in front of the required `=`, which can never match, so
maximal munch followed by `=` is equivalent to the regex. -/
def matchPair (cs : List Char) : Option ((String × Dec) × List Char) :=
  let ident := cs.takeWhile isIdentChar
  if ident.length = 0 then none
  else
    match cs.drop ident.length with
    | '=' :: rest =>
      match matchNumber rest with
      | some (d, rest2) => some ((String.mk ident, d), rest2)
      | none => none
    | _ => none

/-- Scanning loop of `re.findall`: try to match at the current
position; on success continue after the match, on failure advance one
character.  Every step consumes at least one character (a successful
match has length at least three), so fuel equal to the input length is
never exhausted. -/
def findallKVAux : ℕ → List Char → List (String × Dec)
  | 0, _ => []
  | _ + 1, [] => []
  | fuel + 1, c :: cs =>
    match matchPair (c :: cs) with
    | some (kv, rest) => kv :: findallKVAux fuel rest
    | none => findallKVAux fuel cs

/-- `self.kv_pattern.findall(original_message)` composed with
`_convert_value`: the ordered list of matched (identifier, value)
pairs.  Every string matched by the number group is a valid float
literal, so the `float()` call in `_convert_value` never takes its
defaulting branch; the value is the exact decimal of the match. -/
def findallKV (msg : String) : List (String × Dec) :=
  findallKVAux msg.length msg.toList

/-- Assignment `d[k] = v` on an insertion-ordered Python dict
represented as an association list: an existing key keeps its position
and gets the new value, a new key is appended. -/
def dictInsert (d : List (String × Dec)) (k : String) (v : Dec) :
    List (String × Dec) :=
  if d.any (fun p => p.1 = k) then
    d.map (fun p => if p.1 = k then (k, v) else p)
  else d ++ [(k, v)]

/-- The dict comprehension
`{key: self._convert_value(value) for key, value in pairs}` in
`process_message`: Python dict construction over the matched pairs in
order. -/
def dictOfPairs (pairs : List (String × Dec)) : List (String × Dec) :=
  pairs.foldl (fun d p => dictInsert d p.1 p.2) []

/-- Decimal digit characters of `n`, most significant first; the fuel
is decremented once per produced digit, so fuel `n` is never exhausted
for input `n`. -/
def natDigitsAux : ℕ → ℕ → List Char
  | 0, _ => []
  | fuel + 1, n =>
    if n = 0 then []
    else natDigitsAux fuel (n / 10) ++ [Char.ofNat (48 + n % 10)]

/-- Decimal digit characters of a natural number. -/
def natDigits (n : ℕ) : List Char :=
  if n = 0 then ['0'] else natDigitsAux n n

/-- Number of decimal digits of a natural number. -/
def numDigits (n : ℕ) : ℕ := (natDigits n).length

/-- Round `n / 10 ^ k` to the nearest integer, ties to even, as the
correctly rounding float-to-string conversion under the `g` format
does. -/
def roundHalfEvenDrop (n k : ℕ) : ℕ :=
  let p := 10 ^ k
  let q := n / p
  let r := n % p
  if r * 2 < p then q
  else if r * 2 > p then q + 1
  else if q % 2 = 0 then q else q + 1

/-- List of `k` zero characters. -/
def zeroChars (k : ℕ) : List Char := List.replicate k '0'

/-- Strip trailing zero characters, as the `g` format does after
rounding to the requested number of significant digits. -/
def dropTrailingZeros (ds : List Char) : List Char :=
  (ds.reverse.dropWhile (fun c => c = '0')).reverse

/-- Fixed-point rendering of the `g` format: significant digits `sig`
with the decimal point placed according to the decimal exponent `E`
(the floor of the base ten logarithm of the value). -/
def fmtFixed (E : ℤ) (sig : List Char) : List Char :=
  if 0 ≤ E then
    let k := E.toNat + 1
    if sig.length ≤ k then sig ++ zeroChars (k - sig.length)
    else sig.take k ++ ['.'] ++ sig.drop k
  else ['0', '.'] ++ zeroChars (E.natAbs - 1) ++ sig

/-- Scientific rendering of the `g` format: `d.ddde±XX` with at least
two exponent digits. -/
def fmtSci (E : ℤ) (sig : List Char) : List Char :=
  let head := sig.take 1
  let tail := sig.drop 1
  let ed := natDigits E.natAbs
  let ed2 := if ed.length < 2 then '0' :: ed else ed
  head ++ (if tail.isEmpty then [] else '.' :: tail) ++
    ['e', if E < 0 then '-' else '+'] ++ ed2

/-- The Python format `f"{value:.15g}"` used by `_rebuild_message`, on
an exact decimal value: round to 15 significant decimal digits (ties to
even), strip trailing zeros, and render fixed-point when the decimal
exponent `E` satisfies `-4 ≤ E < 15`, scientific otherwise.  A zero
value renders as `0` (an exact decimal does not carry the sign of the
float negative zero). -/
def fmt15g (a : Dec) : String :=
  if a.m = 0 then "0"
  else
    let N := a.m.natAbs
    let d := numDigits N
    let n15 := if d ≤ 15 then N * 10 ^ (15 - d) else roundHalfEvenDrop N (d - 15)
    let E0 : ℤ := ((d : ℤ) - 1) + a.e
    let n16 := if n15 = 10 ^ 15 then 10 ^ 14 else n15
    let E := if n15 = 10 ^ 15 then E0 + 1 else E0
    let sig := dropTrailingZeros (natDigits n16)
    let body := if -4 ≤ E ∧ E < 15 then fmtFixed E sig else fmtSci E sig
    String.mk (if a.m < 0 then '-' :: body else body)

/-- `UnitConverter._rebuild_message`: `key=value` lines joined and
terminated by CRLF.  Every dictionary value is a float, so only the
float formatting branch of the Python loop is reachable. -/
def rebuild_message (data : List (String × Dec)) : String :=
  String.intercalate "\r\n" (data.map (fun p => p.1 ++ "=" ++ fmt15g p.2)) ++ "\r\n"

/-- `UnitConverter.process_message`: parse, build the data dict, apply
conversions, rebuild.  The no-pairs early return (the Python
`{"error": "No key=value pairs found"}` info dict together with the
unchanged message) is modelled by `none`; a normal run returns the
`conversion_info` record.  The surrounding `try` never fires in this
pure model. -/
def process_message (s : ConversionSettings) (msg : String) :
    String × Option ConversionInfo :=
  let pairs := findallKV msg
  if pairs.isEmpty then (msg, none)
  else
    let r := apply_conversions s (dictOfPairs pairs)
    (rebuild_message r.1, some r.2)

/-- `conversion_info.get("conversions_applied", 0)` as read by the
bridge handler and by the statistics update in `process_message`. -/
def appliedCount (info : Option ConversionInfo) : ℕ :=
  (info.map (·.conversions_applied)).getD 0

/-- Continuation byte test `0x80..0xBF` of the UTF-8 decoder. -/
def isCont (b : ℕ) : Bool := 0x80 ≤ b && b ≤ 0xBF

/-- Lower bound of the admissible second byte of a three or four byte
UTF-8 sequence with the given lead byte (the CPython decoder rejects
overlong encodings, surrogates and values beyond U+10FFFF at the second
byte). -/
def cont2Lo (b : ℕ) : ℕ :=
  if b = 0xE0 then 0xA0 else if b = 0xF0 then 0x90 else 0x80

/-- Upper bound of the admissible second byte for the given lead
byte. -/
def cont2Hi (b : ℕ) : ℕ :=
  if b = 0xED then 0x9F else if b = 0xF4 then 0x8F else 0xBF

/-- The decode call `data.decode('utf-8', errors='ignore')` of
`MiddlewareUDPReceiver._receive_loop`, on a byte list: well-formed
sequences become characters, each maximal ill-formed subsequence
(an invalid lead byte, or the read part of a sequence whose next byte
is inadmissible, or a truncated sequence at the end of input) is
silently dropped.  With this error handler the decode never raises.
The fuel is decremented once per decoded or dropped unit, each of
which consumes at least one byte, so fuel equal to the input length is
never exhausted. -/
def utf8DecodeIgnoreAux : ℕ → List ℕ → List Char
  | 0, _ => []
  | _ + 1, [] => []
  | fuel + 1, b :: rest =>
    if b < 0x80 then Char.ofNat b :: utf8DecodeIgnoreAux fuel rest
    else if 0xC2 ≤ b && b ≤ 0xDF then
      match rest with
      | b2 :: rest2 =>
        if isCont b2 then
          Char.ofNat ((b - 0xC0) * 0x40 + (b2 - 0x80)) ::
            utf8DecodeIgnoreAux fuel rest2
        else utf8DecodeIgnoreAux fuel rest
      | [] => []
    else if 0xE0 ≤ b && b ≤ 0xEF then
      match rest with
      | b2 :: rest2 =>
        if cont2Lo b ≤ b2 && b2 ≤ cont2Hi b then
          match rest2 with
          | b3 :: rest3 =>
            if isCont b3 then
              Char.ofNat ((b - 0xE0) * 0x1000 + (b2 - 0x80) * 0x40 + (b3 - 0x80)) ::
                utf8DecodeIgnoreAux fuel rest3
            else utf8DecodeIgnoreAux fuel rest2
          | [] => []
        else utf8DecodeIgnoreAux fuel rest
      | [] => []
    else if 0xF0 ≤ b && b ≤ 0xF4 then
      match rest with
      | b2 :: rest2 =>
        if cont2Lo b ≤ b2 && b2 ≤ cont2Hi b then
          match rest2 with
          | b3 :: rest3 =>
            if isCont b3 then
              match rest3 with
              | b4 :: rest4 =>
                if isCont b4 then
                  Char.ofNat ((b - 0xF0) * 0x40000 + (b2 - 0x80) * 0x1000 +
                      (b3 - 0x80) * 0x40 + (b4 - 0x80)) ::
                    utf8DecodeIgnoreAux fuel rest4
                else utf8DecodeIgnoreAux fuel rest3
              | [] => []
            else utf8DecodeIgnoreAux fuel rest2
          | [] => []
        else utf8DecodeIgnoreAux fuel rest
      | [] => []
    else utf8DecodeIgnoreAux fuel rest

/-- Decoding of one datagram payload by the receive loop. -/
def utf8DecodeIgnore (bs : List ℕ) : String :=
  String.mk (utf8DecodeIgnoreAux bs.length bs)

/-- One outcome of the blocking `recvfrom` call in `_receive_loop`: a
datagram arrives, the receive timeout fires, or the socket raises
`OSError`. -/
inductive RecvEvent where
  | datagram (payload : List ℕ)
  | timeout
  | oserror
deriving DecidableEq, Repr

/-- The mutable fields of `MiddlewareUDPReceiver` touched by the
receive loop (the wall clock timestamp `last_received_time` carries no
information the claims use and is not modelled). -/
structure ReceiverState where
  running : Bool
  messages_received : ℕ
  bytes_received : ℕ
  error_count : ℕ
deriving DecidableEq, Repr

/-- `MiddlewareUDPReceiver._receive_loop` over a finite trace of socket
outcomes, with the registered `data_callback` modelled as a function
that either returns or raises (`Except.error`).  Per the source: an
empty datagram skips the `if data:` body; a nonempty one is decoded
with `errors='ignore'` (which never raises, leaving the
`except UnicodeDecodeError` clause dead), the message and byte counters
are updated, and the callback is invoked inside `try`; a callback
exception is logged and counted and the loop continues; `socket.timeout`
continues; `OSError` is logged and counted while running and always
breaks the loop.  The bridge always registers a callback, so the
`if self.data_callback:` test is true. -/
def receive_loop (cb : String → Except String Unit) :
    List RecvEvent → ReceiverState → ReceiverState
  | [], s => s
  | ev :: rest, s =>
    if s.running = false then s
    else
      match ev with
      | .timeout => receive_loop cb rest s
      | .oserror => { s with error_count := s.error_count + 1 }
      | .datagram payload =>
        if payload.length = 0 then receive_loop cb rest s
        else
          let s1 := { s with
            messages_received := s.messages_received + 1,
            bytes_received := s.bytes_received + payload.length }
          match cb (utf8DecodeIgnore payload) with
          | .ok _ => receive_loop cb rest s1
          | .error _ =>
            receive_loop cb rest { s1 with error_count := s1.error_count + 1 }

/-- The fields of `UDPMiddlewareBridge` the start and stop transitions
touch.  `sender_start_called` records whether `start_sending` was ever
invoked on the sender; `sender_socket_open` and `receiver_running`
model the component states `start`/`stop` create and tear down. -/
structure BridgeState where
  running : Bool
  error_count : ℕ
  messages_processed : ℕ
  messages_converted : ℕ
  messages_forwarded : ℕ
  receiver_running : Bool
  sender_start_called : Bool
  sender_socket_open : Bool
deriving DecidableEq, Repr

/-- `UDPMiddlewareBridge.stop`: the not-running early return, otherwise
clear the running flag, cancel the monitoring task, close the sender
socket and stop the receiver. -/
def bridge_stop (b : BridgeState) : BridgeState :=
  if b.running = false then b
  else { b with
    running := false,
    receiver_running := false,
    sender_socket_open := false }

/-- `UDPMiddlewareBridge.start`.  `bindOk` is the outcome of the
receiver socket `bind` inside `start_receiving` (false models the
`OSError` of an already-in-use inbound port) and `senderOk` the outcome
of the sender socket creation inside `start_sending`.  The second
component is the value the coroutine returns to its caller: the Python
function is declared `-> None` and every path returns `None`, modelled
as `none` in the type `Option Bool` a boolean success indication would
inhabit. -/
def bridge_start (b : BridgeState) (bindOk senderOk : Bool) :
    BridgeState × Option Bool :=
  if b.running then (b, none)
  else
    let b1 := { b with
      running := true, error_count := 0,
      messages_processed := 0, messages_converted := 0,
      messages_forwarded := 0 }
    if bindOk = false then
      (bridge_stop { b1 with error_count := b1.error_count + 1 }, none)
    else
      let b2 := { b1 with receiver_running := true }
      if senderOk = false then
        (bridge_stop { b2 with
          sender_start_called := true,
          error_count := b2.error_count + 1 }, none)
      else
        ({ b2 with sender_start_called := true, sender_socket_open := true },
         none)

/-- Key list (in order) of a data dictionary. -/
def dictKeys (d : List (String × Dec)) : List String := d.map Prod.fst

/-- The order in which Python dict construction arranges keys: each key
at the position of its first occurrence in the input. -/
def firstOccur (l : List String) : List String :=
  l.foldl (fun acc k => if k ∈ acc then acc else acc ++ [k]) []

/-- Python dict subscript `d[k]` on the association list representation:
the value of the first entry with key `k` (on a dict the keys are
unique, so the first entry is the only one). -/
def pylookup (k : String) : List (String × Dec) → Option Dec
  | [] => none
  | p :: rest => if p.1 = k then some p.2 else pylookup k rest

/-- The five convertible (category, target unit) pairs of the
conversion table and their factors: precisely the multiplying branches
of the `_convert_*` methods (every other configured target is either
the source unit of its category or unknown). -/
def factorFor : Category → String → Option Dec
  | .altitude, t => if t = "feet" then some meters_to_feet else none
  | .speed, t =>
    if t = "kmh" then some mps_to_kmh
    else if t = "knots" then some mps_to_knots else none
  | .vario, t => if t = "fpm" then some mps_to_fpm else none
  | .acceleration, t => if t = "fps2" then some mps2_to_fps2 else none

/-- The units the `_convert_*` method of a category recognises: its
source unit and its supported targets; any other nonempty configured
target reaches the warning branch. -/
def knownUnits : Category → List String
  | .altitude => ["meters", "feet"]
  | .speed => ["mps", "kmh", "knots"]
  | .vario => ["mps", "fpm"]
  | .acceleration => ["mps2", "fps2"]

/-- Settings equal to the source units of all categories, with
conversions enabled (the defaults of `UnitConversionSettings` in
settings.py). -/
def identitySettings : ConversionSettings :=
  ⟨some true, some "meters", some "mps", some "mps", some "mps2"⟩

/-- The settings of the end-to-end scenario: altitude to feet, speed to
knots, conversions enabled. -/
def scenarioSettings : ConversionSettings :=
  ⟨some true, some "feet", some "knots", some "mps", some "mps2"⟩

/-- Settings equal to `identitySettings` except that altitude is
configured to feet. -/
def feetSettings : ConversionSettings :=
  ⟨some true, some "feet", some "mps", some "mps", some "mps2"⟩

/-- A sequence of settings reads as observed by `_apply_conversions`
when a concurrent `update_settings` call replaces `identitySettings` by
`feetSettings` between the first and the second loop iteration (reads 0
and 1 happen before the update, read 2 after it). -/
def mixedReads : ℕ → ConversionSettings :=
  fun i => if i ≤ 1 then identitySettings else feetSettings

/-- A datagram payload that is not valid UTF-8: a 0xFF byte (never
valid in UTF-8) followed by the ASCII bytes of `altitude=100`. -/
def badPayload : List ℕ :=
  [0xFF, 0x61, 0x6C, 0x74, 0x69, 0x74, 0x75, 0x64, 0x65, 0x3D, 0x31, 0x30, 0x30]

/-- A receiver state as left by `start_receiving`: running, all
counters zero. -/
def freshReceiver : ReceiverState := ⟨true, 0, 0, 0⟩

/-- A concrete event trace for the witness of the receive loop
property: two nonempty datagrams (ASCII `a=1` and `b=2`) with a timeout
between them. -/
def witnessEvents : List RecvEvent :=
  [.datagram [0x61, 0x3D, 0x31], .timeout, .datagram [0x62, 0x3D, 0x32]]

/-- A concrete callback that raises exactly on the decoded text
`a=1`. -/
def witnessCallback : String → Except String Unit :=
  fun msg => if msg = "a=1" then .error "handler failure" else .ok ()

/-- A bridge that has never been started: not running, no errors, no
statistics, components down. -/
def stoppedBridge : BridgeState := ⟨false, 0, 0, 0, 0, false, false, false⟩

/-- Settings with an unknown altitude target unit (`yards`), everything
else at the source units, conversions enabled. -/
def badUnitSettings : ConversionSettings :=
  ⟨some true, some "yards", some "mps", some "mps", some "mps2"⟩

/-- The receive events that enter the datagram-processing body of the
loop: nonempty datagrams. -/
def nonemptyDatagram : RecvEvent → Bool
  | .datagram p => !p.isEmpty
  | _ => false

/-- The receive events on which the registered callback raises: the
nonempty datagrams whose decoded text makes `cb` return an error. -/
def failingDatagram (cb : String → Except String Unit) : RecvEvent → Bool
  | .datagram p =>
    !p.isEmpty &&
      (match cb (utf8DecodeIgnore p) with
       | .ok _ => false
       | .error _ => true)
  | _ => false

end CondorUDP

namespace CondorUDP

/-- Multiplication of scaled decimals is exact: the rational value of
the product is the product of the rational values. -/
theorem Dec.mul_toRat (a b : Dec) :
    (Dec.mul a b).toRat = a.toRat * b.toRat := by
  simp [Dec.mul, Dec.toRat, zpow_add₀ (by norm_num : (10:ℚ) ≠ 0)]
  ring

/-- With a single settings object for all reads, the loop of
`_apply_conversions` rewrites each dictionary entry by `convertPair`,
independently of the starting read index. -/
theorem applyAux_fst (s : ConversionSettings) (data : List (String × Dec)) :
    ∀ i, (applyConversionsAux (fun _ => s) i data).1 =
      data.map (fun p => (p.1, (convertPair s p.1 p.2).1)) := by
  induction data with
  | nil => intro i; rfl
  | cons p rest ih => intro i; simp [applyConversionsAux, ih (i + 1)]

/-- The loop of `_apply_conversions` never changes the key list of the
data dictionary, whatever settings each iteration observes. -/
theorem applyAux_keys (reads : ℕ → ConversionSettings)
    (data : List (String × Dec)) :
    ∀ i, dictKeys (applyConversionsAux reads i data).1 = dictKeys data := by
  induction data with
  | nil => intro i; rfl
  | cons p rest ih => intro i; simp [applyConversionsAux, dictKeys] at ih ⊢; exact ih (i + 1)

/-- With conversions enabled, `_apply_conversions` maps `convertPair`
over the entries of the data dictionary. -/
theorem apply_conversions_fst (s : ConversionSettings)
    (data : List (String × Dec)) (hen : s.enabledFlag = true) :
    (apply_conversions s data).1 =
      data.map (fun p => (p.1, (convertPair s p.1 p.2).1)) := by
  simp [apply_conversions, apply_conversions_trace, hen, applyAux_fst]

/-- `_apply_conversions` preserves the key list of the data
dictionary. -/
theorem apply_conversions_keys (s : ConversionSettings)
    (data : List (String × Dec)) :
    dictKeys (apply_conversions s data).1 = dictKeys data := by
  by_cases hen : s.enabledFlag = true
  · simp [apply_conversions, apply_conversions_trace, hen, applyAux_keys]
  · simp [apply_conversions, apply_conversions_trace,
      Bool.not_eq_true _ ▸ hen]

/-- The `conversions_applied` counter built by the loop counts exactly
the entries whose `convertPair` applied a conversion. -/
theorem applyAux_applied (s : ConversionSettings)
    (data : List (String × Dec)) :
    ∀ i, (applyConversionsAux (fun _ => s) i data).2.conversions_applied =
      (data.filter (fun p => (convertPair s p.1 p.2).2)).length := by
  induction data with
  | nil => intro i; rfl
  | cons p rest ih =>
    intro i
    by_cases hp : (convertPair s p.1 p.2).2 = true <;>
      simp [applyConversionsAux, hp, ih (i + 1), List.filter]
    omega

/-- A key is listed in `variables_converted` exactly when one of its
dictionary entries had a conversion applied. -/
theorem applyAux_vars (s : ConversionSettings)
    (data : List (String × Dec)) (k : String) :
    ∀ i, (k ∈ (applyConversionsAux (fun _ => s) i data).2.variables_converted ↔
      ∃ v, (k, v) ∈ data ∧ (convertPair s k v).2 = true) := by
  induction data with
  | nil => intro i; simp [applyConversionsAux]
  | cons p rest ih =>
    intro i
    obtain ⟨k0, v0⟩ := p
    by_cases hp : (convertPair s k0 v0).2 = true <;>
      simp [applyConversionsAux, hp, ih (i + 1)] <;> aesop

/-- On a dictionary with unique keys, an entry value is determined by
its key. -/
theorem mem_unique_of_nodup (d : List (String × Dec)) (k : String)
    (v v2 : Dec) (h : (dictKeys d).Nodup) (h1 : (k, v) ∈ d)
    (h2 : (k, v2) ∈ d) : v = v2 := by
  induction d with
  | nil => cases h1
  | cons p rest ih =>
    simp only [dictKeys, List.map_cons, List.nodup_cons] at h
    rw [List.mem_cons] at h1 h2
    rcases h1 with h1 | h1 <;> rcases h2 with h2 | h2
    · rw [← h1] at h2
      exact (((Prod.mk.injEq _ _ _ _).mp h2).2).symm
    · exfalso
      apply h.1
      have hpk : p.1 = k := by rw [← h1]
      rw [hpk]
      simpa using List.mem_map_of_mem Prod.fst h2
    · exfalso
      apply h.1
      have hpk : p.1 = k := by rw [← h2]
      rw [hpk]
      simpa using List.mem_map_of_mem Prod.fst h1
    · exact ih h.2 h1 h2

/-- The Boolean membership test of `dictInsert` agrees with key list
membership. -/
theorem any_keys (d : List (String × Dec)) (k : String) :
    d.any (fun p => p.1 = k) = true ↔ k ∈ dictKeys d := by
  simp [dictKeys, List.any_eq_true, List.mem_map]

/-- Key list of a dict after one assignment: unchanged for an existing
key, the new key appended otherwise. -/
theorem dictInsert_keys (d : List (String × Dec)) (k : String) (v : Dec) :
    dictKeys (dictInsert d k v) =
      if k ∈ dictKeys d then dictKeys d else dictKeys d ++ [k] := by
  by_cases hm : k ∈ dictKeys d
  · rw [if_pos hm]
    have ha := (any_keys d k).mpr hm
    simp only [dictInsert, ha, if_true, dictKeys, List.map_map]
    refine List.map_congr_left ?_
    intro p _
    by_cases hpk : p.1 = k <;> simp [hpk]
  · rw [if_neg hm]
    have ha : d.any (fun p => p.1 = k) = false :=
      Bool.eq_false_iff.mpr (fun hh => hm ((any_keys d k).mp hh))
    simp [dictInsert, ha, dictKeys]

/-- Key list of the dict built from a pair list, with a generalized
starting dict. -/
theorem dict_foldl_keys (ps : List (String × Dec)) :
    ∀ d, dictKeys (ps.foldl (fun d p => dictInsert d p.1 p.2) d) =
      (ps.map Prod.fst).foldl
        (fun acc k => if k ∈ acc then acc else acc ++ [k]) (dictKeys d) := by
  induction ps with
  | nil => intro d; rfl
  | cons p rest ih =>
    intro d
    simp only [List.foldl_cons, List.map_cons]
    rw [ih, dictInsert_keys]

/-- The keys of the data dict are the parsed identifiers in order of
first occurrence. -/
theorem dictKeys_dictOfPairs (ps : List (String × Dec)) :
    dictKeys (dictOfPairs ps) = firstOccur (ps.map Prod.fst) := by
  simpa [dictOfPairs, firstOccur, dictKeys] using dict_foldl_keys ps []

/-- One dict assignment preserves key uniqueness. -/
theorem dictInsert_nodup (d : List (String × Dec)) (k : String) (v : Dec)
    (h : (dictKeys d).Nodup) : (dictKeys (dictInsert d k v)).Nodup := by
  rw [dictInsert_keys]
  by_cases hm : k ∈ dictKeys d
  · simpa [hm] using h
  · simpa [hm, List.nodup_append] using h

/-- The dict built from a pair list has unique keys. -/
theorem dictOfPairs_nodup (ps : List (String × Dec)) :
    (dictKeys (dictOfPairs ps)).Nodup := by
  suffices h : ∀ d, (dictKeys d).Nodup →
      (dictKeys (ps.foldl (fun d p => dictInsert d p.1 p.2) d)).Nodup by
    exact h [] (by simp [dictKeys])
  induction ps with
  | nil => intro d hd; exact hd
  | cons p rest ih =>
    intro d hd
    exact ih _ (dictInsert_nodup _ _ _ hd)

/-- Lookup through the update branch of `dictInsert`. -/
theorem pylookup_map_update (d : List (String × Dec)) (k : String)
    (v : Dec) (k2 : String) :
    pylookup k2 (d.map (fun p => if p.1 = k then (k, v) else p)) =
      if k2 = k then (if k ∈ dictKeys d then some v else none)
      else pylookup k2 d := by
  induction d with
  | nil => by_cases hk2 : k2 = k <;> simp [pylookup, hk2, dictKeys]
  | cons p rest ih =>
    by_cases hpk : p.1 = k
    · by_cases hk2 : k2 = k
      · subst hk2
        simp [pylookup, hpk, dictKeys]
      · simp [pylookup, hpk, hk2, Ne.symm hk2, ih]
    · by_cases hk2 : k2 = k
      · subst hk2
        by_cases hm : k2 ∈ List.map Prod.fst rest <;>
          simp [pylookup, hpk, Ne.symm hpk, ih, dictKeys, hm]
      · simp [pylookup, hpk, hk2, ih]

/-- Lookup through the append branch of `dictInsert` (new key). -/
theorem pylookup_append_single (d : List (String × Dec)) (k : String)
    (v : Dec) (k2 : String) (h : k ∉ dictKeys d) :
    pylookup k2 (d ++ [(k, v)]) =
      if k2 = k then some v else pylookup k2 d := by
  induction d with
  | nil => by_cases hk2 : k2 = k <;> simp [pylookup, hk2, Ne.symm, hk2]
  | cons p rest ih =>
    have hrest : k ∉ dictKeys rest := by
      intro hh
      exact h (by simp [dictKeys]; exact Or.inr (by simpa [dictKeys] using hh))
    have hp1 : p.1 ≠ k := by
      intro hh
      exact h (by simp [dictKeys, hh])
    by_cases hp2 : p.1 = k2
    · have hk2 : ¬(k2 = k) := fun hh => hp1 (hp2.trans hh)
      simp [pylookup, hp2, hk2]
    · simp [pylookup, hp2, ih hrest]

/-- Lookup after a dict assignment: the assigned key has the new value,
every other key is unchanged. -/
theorem pylookup_dictInsert (d : List (String × Dec)) (k : String)
    (v : Dec) (k2 : String) :
    pylookup k2 (dictInsert d k v) =
      if k2 = k then some v else pylookup k2 d := by
  by_cases hm : k ∈ dictKeys d
  · rw [dictInsert, if_pos ((any_keys d k).mpr hm), pylookup_map_update]
    simp [hm]
  · rw [dictInsert, if_neg (fun hh => hm ((any_keys d k).mp hh)),
      pylookup_append_single d k v k2 hm]

/-- Building the dict of `ps ++ [p]` is one assignment on the dict of
`ps`. -/
theorem dictOfPairs_append_single (ps : List (String × Dec))
    (p : String × Dec) :
    dictOfPairs (ps ++ [p]) = dictInsert (dictOfPairs ps) p.1 p.2 := by
  simp [dictOfPairs, List.foldl_append]

/-- The value stored for a key by Python dict construction is the value
of the last occurrence of that key in the input: looking it up in the
dict is looking it up in the reversed input. -/
theorem pylookup_dictOfPairs (ps : List (String × Dec)) (k : String) :
    pylookup k (dictOfPairs ps) = pylookup k ps.reverse := by
  induction ps using List.reverseRecOn with
  | nil => rfl
  | append_singleton ps p ih =>
    rw [dictOfPairs_append_single, pylookup_dictInsert, List.reverse_append]
    by_cases hk : k = p.1
    · simp [pylookup, hk]
    · simp [pylookup, hk, Ne.symm hk, ih]

/-- One dict assignment grows the dict by at most one entry. -/
theorem dictInsert_length (d : List (String × Dec)) (k : String) (v : Dec) :
    (dictInsert d k v).length ≤ d.length + 1 := by
  unfold dictInsert
  split <;> simp

/-- The dict never has more entries than the pair list it is built
from. -/
theorem dictOfPairs_length_le (ps : List (String × Dec)) :
    (dictOfPairs ps).length ≤ ps.length := by
  suffices h : ∀ d, (ps.foldl (fun d p => dictInsert d p.1 p.2) d).length ≤
      d.length + ps.length by
    simpa [dictOfPairs] using h []
  induction ps with
  | nil => intro d; simp
  | cons p rest ih =>
    intro d
    simp only [List.foldl_cons, List.length_cons]
    calc (rest.foldl (fun d p => dictInsert d p.1 p.2)
            (dictInsert d p.1 p.2)).length ≤
          (dictInsert d p.1 p.2).length + rest.length := ih _
      _ ≤ d.length + 1 + rest.length := by
          exact Nat.add_le_add_right (dictInsert_length d p.1 p.2) _
      _ = d.length + (rest.length + 1) := by omega

/-- A key of the first-occurrence list is a key of the input and
conversely, for any starting accumulator. -/
theorem mem_foldl_firstOccur (l : List String) (a : String) :
    ∀ acc, (a ∈ l.foldl
        (fun acc k => if k ∈ acc then acc else acc ++ [k]) acc ↔
      a ∈ acc ∨ a ∈ l) := by
  induction l with
  | nil => intro acc; simp
  | cons b rest ih =>
    intro acc
    by_cases hb : b ∈ acc <;> simp [List.foldl_cons, hb, ih] <;> aesop

/-- Membership in the first-occurrence list. -/
theorem mem_firstOccur (l : List String) (a : String) :
    a ∈ firstOccur l ↔ a ∈ l := by
  simpa [firstOccur] using mem_foldl_firstOccur l a []

end CondorUDP


namespace CondorUDP

/-- A convertible target unit is never the empty string. -/
theorem factorFor_ne_empty (c : Category) (t : String) (f : Dec)
    (h : factorFor c t = some f) : t ≠ "" := by
  intro he
  subst he
  cases c <;> simp [factorFor] at h

/-- A target unit with a table factor converts the value by exactly
that factor in the corresponding conversion method. -/
theorem convert_variable_factor (v : Dec) (c : Category) (t : String)
    (f : Dec) (h : factorFor c t = some f) :
    convert_variable v c t = ⟨v.mul f, true, false⟩ := by
  cases c
  case altitude =>
    by_cases h1 : t = "feet"
    · subst h1
      obtain rfl : meters_to_feet = f := by simpa [factorFor] using h
      simp [convert_variable, convert_altitude]
    · simp [factorFor, h1] at h
  case speed =>
    by_cases h1 : t = "kmh"
    · subst h1
      obtain rfl : mps_to_kmh = f := by simpa [factorFor] using h
      simp [convert_variable, convert_speed]
    · by_cases h2 : t = "knots"
      · subst h2
        obtain rfl : mps_to_knots = f := by simpa [factorFor] using h
        simp [convert_variable, convert_speed]
      · simp [factorFor, h1, h2] at h
  case vario =>
    by_cases h1 : t = "fpm"
    · subst h1
      obtain rfl : mps_to_fpm = f := by simpa [factorFor] using h
      simp [convert_variable, convert_vario]
    · simp [factorFor, h1] at h
  case acceleration =>
    by_cases h1 : t = "fps2"
    · subst h1
      obtain rfl : mps2_to_fps2 = f := by simpa [factorFor] using h
      simp [convert_variable, convert_acceleration]
    · simp [factorFor, h1] at h

/-- `convertPair` under a mapped variable with a factor-bearing
configured target multiplies the value by the table factor and counts
the conversion. -/
theorem convertPair_factor (s : ConversionSettings) (k : String) (v : Dec)
    (c : Category) (t : String) (f : Dec)
    (hmap : variable_mappings k = some c) (hget : s.get c = some t)
    (hfac : factorFor c t = some f) :
    convertPair s k v = (v.mul f, true) := by
  have hne := factorFor_ne_empty c t f hfac
  simp [convertPair, hmap, hget, hne, convert_variable_factor v c t f hfac]

/-- Under settings equal to the source units, no pair is changed and no
conversion is counted. -/
theorem convertPair_identity (k : String) (v : Dec) :
    convertPair identitySettings k v = (v, false) := by
  cases hm : variable_mappings k with
  | none => simp [convertPair, hm]
  | some c =>
    cases c <;>
      simp [convertPair, hm, identitySettings, ConversionSettings.get,
        convert_variable, convert_altitude, convert_speed, convert_vario,
        convert_acceleration]

/-- With identity settings `_apply_conversions` returns its input with
an empty conversion record. -/
theorem apply_conversions_identity (data : List (String × Dec)) :
    apply_conversions identitySettings data = (data, ⟨0, []⟩) := by
  rw [apply_conversions, apply_conversions_trace]
  simp only [show identitySettings.enabledFlag = true from rfl,
    Bool.true_eq_false, if_false]
  suffices h : ∀ i,
      applyConversionsAux (fun _ => identitySettings) i data =
        (data, ⟨0, []⟩) from h 1
  induction data with
  | nil => intro i; rfl
  | cons p rest ih =>
    intro i
    obtain ⟨k, v⟩ := p
    simp [applyConversionsAux, convertPair_identity, ih (i + 1)]

/-- An unknown nonempty target unit reaches the warning branch of the
category conversion method and changes nothing. -/
theorem convert_variable_unknown (v : Dec) (c : Category) (t : String)
    (h : t ∉ knownUnits c) : convert_variable v c t = ⟨v, false, true⟩ := by
  cases c
  case altitude =>
    simp [knownUnits] at h
    simp [convert_variable, convert_altitude, h.1, h.2]
  case speed =>
    simp [knownUnits] at h
    simp [convert_variable, convert_speed, h.1, h.2.1, h.2.2]
  case vario =>
    simp [knownUnits] at h
    simp [convert_variable, convert_vario, h.1, h.2]
  case acceleration =>
    simp [knownUnits] at h
    simp [convert_variable, convert_acceleration, h.1, h.2]

end CondorUDP

namespace CondorUDP

/-- C1: for every parsed pair whose variable maps to a category with
conversions enabled and a configured target unit carrying a table
factor (altitude to feet at 3.28084, speed to kmh at 3.6, speed to
knots at 1.94384, vario to fpm at 196.85, acceleration to fps2 at
3.28084), `process_message` replaces the value by the original value
multiplied by that factor; in particular the input pair
`altitude=100.0` with target feet yields the output pair
`altitude=328.084`. -/
theorem claims_C1 (s : ConversionSettings) (k : String) (v : Dec)
    (c : Category) (t : String) (f : Dec) (hen : s.enabledFlag = true)
    (hmap : variable_mappings k = some c) (hget : s.get c = some t)
    (hfac : factorFor c t = some f) :
    convertPair s k v = (v.mul f, true) ∧
    (v.mul f).toRat = v.toRat * f.toRat ∧
    (∀ data, (k, v) ∈ data → (k, v.mul f) ∈ (apply_conversions s data).1) ∧
    (factorFor .altitude "feet" = some meters_to_feet ∧
      meters_to_feet.toRat = 3.28084) ∧
    (factorFor .speed "kmh" = some mps_to_kmh ∧ mps_to_kmh.toRat = 3.6) ∧
    (factorFor .speed "knots" = some mps_to_knots ∧
      mps_to_knots.toRat = 1.94384) ∧
    (factorFor .vario "fpm" = some mps_to_fpm ∧
      mps_to_fpm.toRat = 196.85) ∧
    (factorFor .acceleration "fps2" = some mps2_to_fps2 ∧
      mps2_to_fps2.toRat = 3.28084) ∧
    process_message scenarioSettings "altitude=100.0\r\n" =
      ("altitude=328.084\r\n", some ⟨1, ["altitude"]⟩) := by
  have hcp := convertPair_factor s k v c t f hmap hget hfac
  refine ⟨hcp, Dec.mul_toRat v f, ?_,
    ⟨by decide, by norm_num [Dec.toRat, meters_to_feet]⟩,
    ⟨by decide, by norm_num [Dec.toRat, mps_to_kmh]⟩,
    ⟨by decide, by norm_num [Dec.toRat, mps_to_knots]⟩,
    ⟨by decide, by norm_num [Dec.toRat, mps_to_fpm]⟩,
    ⟨by decide, by norm_num [Dec.toRat, mps2_to_fps2]⟩,
    by decide⟩
  intro data hmem
  rw [apply_conversions_fst s data hen]
  have h2 := List.mem_map_of_mem
    (fun p => (p.1, (convertPair s p.1 p.2).1)) hmem
  simpa [hcp] using h2

/-- C1 witness: the altitude pair of the scenario settings at the
concrete value 100.0. -/
theorem claims_C1_witness :
    scenarioSettings.enabledFlag = true ∧
    variable_mappings "altitude" = some Category.altitude ∧
    scenarioSettings.get Category.altitude = some "feet" ∧
    factorFor Category.altitude "feet" = some meters_to_feet ∧
    convertPair scenarioSettings "altitude" ⟨1000, -1⟩ =
      (Dec.mul ⟨1000, -1⟩ meters_to_feet, true) :=
  ⟨by decide, by decide, by decide, by decide,
   (claims_C1 scenarioSettings "altitude" ⟨1000, -1⟩ Category.altitude
     "feet" meters_to_feet (by decide) (by decide) (by decide)
     (by decide)).1⟩

/-- C2 counterexample: on an input whose identifier occurs twice, the
text returned by `process_message` is not the re-serialization of all
parsed pairs in original order; the dict construction collapses the
duplicate. -/
theorem claims_C2_counterexample :
    findallKV "a=1\r\na=2\r\n" = [("a", ⟨1, 0⟩), ("a", ⟨2, 0⟩)] ∧
    rebuild_message (findallKV "a=1\r\na=2\r\n") = "a=1\r\na=2\r\n" ∧
    (process_message scenarioSettings "a=1\r\na=2\r\n").1 = "a=2\r\n" ∧
    (process_message scenarioSettings "a=1\r\na=2\r\n").1 ≠
      rebuild_message (findallKV "a=1\r\na=2\r\n") := by decide

/-- C2 (amended): for every input with at least one pair, the returned
text is the parsed pairs, after collapsing duplicate identifiers to one
entry (first-occurrence position), converted and re-serialized as
`key=value` lines joined and terminated by CRLF with values rendered by
the 15-significant-digit format; the key order is the first-occurrence
order of the parsed identifiers; the end-to-end scenario holds with
`conversions_applied = 2`. -/
theorem claims_C2_amended (s : ConversionSettings) (msg : String)
    (h : findallKV msg ≠ []) :
    (process_message s msg).1 =
      String.intercalate "\r\n"
        (((apply_conversions s (dictOfPairs (findallKV msg))).1).map
          (fun p => p.1 ++ "=" ++ fmt15g p.2)) ++ "\r\n" ∧
    dictKeys (apply_conversions s (dictOfPairs (findallKV msg))).1 =
      firstOccur ((findallKV msg).map Prod.fst) ∧
    process_message scenarioSettings
        "time=1.0\r\nairspeed=30.0\r\naltitude=1000.0\r\n" =
      ("time=1\r\nairspeed=58.3152\r\naltitude=3280.84\r\n",
       some ⟨2, ["airspeed", "altitude"]⟩) := by
  refine ⟨?_, ?_, by decide⟩
  · have h2 : (findallKV msg).isEmpty = false := by
      rw [Bool.eq_false_iff]
      intro hh
      exact h (List.isEmpty_iff.mp hh)
    simp [process_message, h2, rebuild_message]
  · rw [apply_conversions_keys, dictKeys_dictOfPairs]

/-- C2 witness: the amended serialization shape at a concrete input. -/
theorem claims_C2_witness :
    findallKV "x=1\r\n" ≠ [] ∧
    (process_message identitySettings "x=1\r\n").1 =
      String.intercalate "\r\n"
        (((apply_conversions identitySettings
            (dictOfPairs (findallKV "x=1\r\n"))).1).map
          (fun p => p.1 ++ "=" ++ fmt15g p.2)) ++ "\r\n" :=
  ⟨by decide, (claims_C2_amended identitySettings "x=1\r\n" (by decide)).1⟩

/-- C3: the settings object is re-read from the converter attribute on
every loop iteration, so a concurrent `update_settings` call observed
between two iterations converts the earlier pairs of one message under
the old target units and the later pairs under the new ones.  Here the
update from `identitySettings` to `feetSettings` lands between the two
pairs: `altitude` stays in meters while `height` (same category) is
converted to feet, a mixture that neither settings object alone
produces. -/
theorem claims_C3_code_bug :
    apply_conversions_trace mixedReads
        [("altitude", ⟨1000, -1⟩), ("height", ⟨2000, -1⟩)] =
      ([("altitude", ⟨1000, -1⟩), ("height", ⟨656168000, -6⟩)],
       ⟨1, ["height"]⟩) ∧
    apply_conversions identitySettings
        [("altitude", ⟨1000, -1⟩), ("height", ⟨2000, -1⟩)] =
      ([("altitude", ⟨1000, -1⟩), ("height", ⟨2000, -1⟩)], ⟨0, []⟩) ∧
    apply_conversions feetSettings
        [("altitude", ⟨1000, -1⟩), ("height", ⟨2000, -1⟩)] =
      ([("altitude", ⟨328084000, -6⟩), ("height", ⟨656168000, -6⟩)],
       ⟨2, ["altitude", "height"]⟩) := by decide

/-- C4 counterexample: the value `start()` returns to its caller on a
receiver bind failure is Python `None`, the same value it returns on
success, so no failure indication is returned to the caller. -/
theorem claims_C4_counterexample :
    (bridge_start stoppedBridge false true).2 = none ∧
    (bridge_start stoppedBridge true true).2 = none ∧
    (bridge_start stoppedBridge false true).2 =
      (bridge_start stoppedBridge true true).2 := by decide

/-- C4 (amended): if binding the inbound port fails during `start()`,
the call returns `None` exactly as on success (the caller observes the
failure only through the bridge state), the bridge ends with `running`
false, the error counter is reset and then incremented to 1, and the
Sender is never started. -/
theorem claims_C4_amended (b : BridgeState) (senderOk : Bool)
    (h : b.running = false) :
    (bridge_start b false senderOk).2 = none ∧
    (bridge_start b false senderOk).1.running = false ∧
    (bridge_start b false senderOk).1.error_count = 1 ∧
    (bridge_start b false senderOk).1.sender_start_called =
      b.sender_start_called ∧
    (bridge_start b false senderOk).1.sender_socket_open = false := by
  simp [bridge_start, h, bridge_stop]

/-- C4 witness: a bind failure on a fresh stopped bridge. -/
theorem claims_C4_witness :
    stoppedBridge.running = false ∧
    ((bridge_start stoppedBridge false true).2 = none ∧
     (bridge_start stoppedBridge false true).1.running = false ∧
     (bridge_start stoppedBridge false true).1.error_count = 1 ∧
     (bridge_start stoppedBridge false true).1.sender_start_called =
       stoppedBridge.sender_start_called ∧
     (bridge_start stoppedBridge false true).1.sender_socket_open = false) :=
  ⟨rfl, claims_C4_amended stoppedBridge true rfl⟩

/-- C5: the receive loop decodes with `errors='ignore'`, which never
raises; a payload that is not valid UTF-8 (leading 0xFF byte) is
silently decoded with the invalid byte dropped, counted as a received
message, and handed to the handler (evidenced by the error counter
moving exactly when the callback raises); with a normal callback the
error counter stays zero, so the datagram is neither dropped nor
counted as a decoding error, contrary to the claim. -/
theorem claims_C5_code_bug :
    utf8DecodeIgnore badPayload = "altitude=100" ∧
    receive_loop (fun _ => Except.ok ()) [.datagram badPayload]
      freshReceiver = ⟨true, 1, 13, 0⟩ ∧
    receive_loop (fun _ => Except.error "handler failure")
      [.datagram badPayload] freshReceiver = ⟨true, 1, 13, 1⟩ := by decide

end CondorUDP

namespace CondorUDP

/-- C6 counterexample: with identity settings, an input whose
identifier occurs twice does not keep the key order of the input: the
duplicate is collapsed, so the output has one `vx` pair instead of two
and the first value 1 is gone. -/
theorem claims_C6_counterexample :
    (findallKV "vx=1\r\nvx=2\r\n").map Prod.fst = ["vx", "vx"] ∧
    process_message identitySettings "vx=1\r\nvx=2\r\n" =
      ("vx=2\r\n", some ⟨0, []⟩) ∧
    (findallKV ((process_message identitySettings "vx=1\r\nvx=2\r\n").1)).map
        Prod.fst = ["vx"] ∧
    (findallKV ((process_message identitySettings "vx=1\r\nvx=2\r\n").1)).map
        Prod.fst ≠ (findallKV "vx=1\r\nvx=2\r\n").map Prod.fst := by decide

/-- C6 (amended): with the identity settings (source units everywhere,
enabled) no conversion is applied: `_apply_conversions` is the identity
with an empty record on every data dict, an input without pairs is
returned verbatim, an input with pairs is re-serialized from its parsed
pairs after duplicate collapse with every numeric value unchanged, and
the applied-conversion count read by the bridge is 0. -/
theorem claims_C6_amended (msg : String) :
    (∀ data, apply_conversions identitySettings data = (data, ⟨0, []⟩)) ∧
    (findallKV msg = [] → process_message identitySettings msg = (msg, none)) ∧
    (findallKV msg ≠ [] →
      process_message identitySettings msg =
        (rebuild_message (dictOfPairs (findallKV msg)), some ⟨0, []⟩)) ∧
    appliedCount (process_message identitySettings msg).2 = 0 := by
  refine ⟨apply_conversions_identity, ?_, ?_, ?_⟩
  · intro h
    have h2 : (findallKV msg).isEmpty = true := List.isEmpty_iff.mpr h
    simp [process_message, h2]
  · intro h
    have h2 : (findallKV msg).isEmpty = false := by
      rw [Bool.eq_false_iff]
      intro hh
      exact h (List.isEmpty_iff.mp hh)
    simp [process_message, h2, apply_conversions_identity]
  · by_cases h : findallKV msg = []
    · have h2 : (findallKV msg).isEmpty = true := List.isEmpty_iff.mpr h
      simp [process_message, h2, appliedCount]
    · have h2 : (findallKV msg).isEmpty = false := by
        rw [Bool.eq_false_iff]
        intro hh
        exact h (List.isEmpty_iff.mp hh)
      simp [process_message, h2, apply_conversions_identity, appliedCount]

/-- C6 witness: the amended identity behavior at a concrete two-pair
input with a mapped and an unmapped variable. -/
theorem claims_C6_witness :
    findallKV "altitude=5\r\nfoo=1\r\n" ≠ [] ∧
    process_message identitySettings "altitude=5\r\nfoo=1\r\n" =
      (rebuild_message (dictOfPairs (findallKV "altitude=5\r\nfoo=1\r\n")),
       some ⟨0, []⟩) :=
  ⟨by decide,
   (claims_C6_amended "altitude=5\r\nfoo=1\r\n").2.2.1 (by decide)⟩

/-- C7: a key that is not in the variable-category mapping passes
through every settings snapshot unchanged: its loop iteration leaves
the value and the counter untouched, and its dict entry survives
`_apply_conversions` with the identical value, in particular on the
dict parsed from any message. -/
theorem claims_C7 (s : ConversionSettings) (k : String) (v : Dec)
    (hmap : variable_mappings k = none) :
    convertPair s k v = (v, false) ∧
    (∀ data, (k, v) ∈ data → (k, v) ∈ (apply_conversions s data).1) ∧
    (∀ msg, (k, v) ∈ dictOfPairs (findallKV msg) →
      (k, v) ∈ (apply_conversions s (dictOfPairs (findallKV msg))).1) := by
  have hcp : convertPair s k v = (v, false) := by simp [convertPair, hmap]
  have hdata : ∀ data, (k, v) ∈ data → (k, v) ∈ (apply_conversions s data).1 := by
    intro data hmem
    by_cases hen : s.enabledFlag = true
    · rw [apply_conversions_fst s data hen]
      have h2 := List.mem_map_of_mem
        (fun p => (p.1, (convertPair s p.1 p.2).1)) hmem
      simpa [hcp] using h2
    · have hen2 : s.enabledFlag = false := by
        cases hfe : s.enabledFlag
        · rfl
        · exact absurd hfe hen
      simpa [apply_conversions, apply_conversions_trace, hen2] using hmem
  exact ⟨hcp, hdata, fun msg => hdata _⟩

/-- C7 witness: the unmapped key `foo` at the value 5. -/
theorem claims_C7_witness :
    variable_mappings "foo" = none ∧
    convertPair scenarioSettings "foo" ⟨5, 0⟩ = (⟨5, 0⟩, false) :=
  ⟨by decide, (claims_C7 scenarioSettings "foo" ⟨5, 0⟩ (by decide)).1⟩

/-- C8: with conversions enabled, a pair whose category is configured
to a nonempty target unit that is neither the source unit nor a
supported target reaches the warning branch (`warned` is true), keeps
its value, is not listed in `variables_converted`, and contributes
nothing to the `conversions_applied` counter, which counts exactly the
entries whose iteration applied a conversion. -/
theorem claims_C8 (s : ConversionSettings) (k : String) (v : Dec)
    (c : Category) (t : String) (hen : s.enabledFlag = true)
    (hmap : variable_mappings k = some c) (hget : s.get c = some t)
    (hne : t ≠ "") (hunk : t ∉ knownUnits c) :
    convert_variable v c t = ⟨v, false, true⟩ ∧
    convertPair s k v = (v, false) ∧
    ∀ data, (dictKeys data).Nodup → (k, v) ∈ data →
      (k, v) ∈ (apply_conversions s data).1 ∧
      k ∉ (apply_conversions s data).2.variables_converted ∧
      (apply_conversions s data).2.conversions_applied =
        (data.filter (fun p => (convertPair s p.1 p.2).2)).length := by
  have hcv := convert_variable_unknown v c t hunk
  have hcp : convertPair s k v = (v, false) := by
    simp [convertPair, hmap, hget, hne, hcv]
  refine ⟨hcv, hcp, ?_⟩
  intro data hnd hmem
  refine ⟨?_, ?_, ?_⟩
  · rw [apply_conversions_fst s data hen]
    have h2 := List.mem_map_of_mem
      (fun p => (p.1, (convertPair s p.1 p.2).1)) hmem
    simpa [hcp] using h2
  · intro hin
    have h3 : k ∈ (applyConversionsAux
        (fun _ => s) 1 data).2.variables_converted := by
      simpa [apply_conversions, apply_conversions_trace, hen] using hin
    obtain ⟨v2, hv2mem, hv2⟩ := (applyAux_vars s data k 1).mp h3
    have hv2v : v2 = v := mem_unique_of_nodup data k v2 v hnd hv2mem hmem
    rw [hv2v, hcp] at hv2
    simp at hv2
  · simp [apply_conversions, apply_conversions_trace, hen, applyAux_applied]

/-- C8 witness: altitude configured to the unknown unit `yards` at the
concrete value 5. -/
theorem claims_C8_witness :
    badUnitSettings.enabledFlag = true ∧
    variable_mappings "altitude" = some Category.altitude ∧
    badUnitSettings.get Category.altitude = some "yards" ∧
    ("yards" : String) ≠ "" ∧
    "yards" ∉ knownUnits Category.altitude ∧
    convert_variable ⟨5, 0⟩ Category.altitude "yards" =
      ⟨⟨5, 0⟩, false, true⟩ :=
  ⟨by decide, by decide, by decide, by decide, by decide,
   (claims_C8 badUnitSettings "altitude" ⟨5, 0⟩ Category.altitude "yards"
     (by decide) (by decide) (by decide) (by decide) (by decide)).1⟩

/-- C9: for every callback (including ones that raise on any datagram)
and every event trace without a socket error, the receive loop stays
running, counts every nonempty datagram, and adds exactly one error per
datagram on which the callback raised: a handler exception is caught
and counted and never terminates the listen loop. -/
theorem claims_C9 (cb : String → Except String Unit)
    (events : List RecvEvent) (s : ReceiverState)
    (hrun : s.running = true) (hos : RecvEvent.oserror ∉ events) :
    (receive_loop cb events s).running = true ∧
    (receive_loop cb events s).messages_received =
      s.messages_received + (events.filter nonemptyDatagram).length ∧
    (receive_loop cb events s).error_count =
      s.error_count + (events.filter (failingDatagram cb)).length := by
  induction events generalizing s with
  | nil => simp [receive_loop, hrun]
  | cons ev rest ih =>
    have hos2 : RecvEvent.oserror ∉ rest :=
      fun hh => hos (List.mem_cons_of_mem _ hh)
    cases ev with
    | timeout =>
      have h3 := ih s hrun hos2
      simpa [receive_loop, hrun, nonemptyDatagram, failingDatagram,
        List.filter] using h3
    | oserror => exact absurd (List.mem_cons_self _ _) hos
    | datagram p =>
      by_cases hp : p.length = 0
      · have hpe : p = [] := List.length_eq_zero.mp hp
        subst hpe
        have h3 := ih s hrun hos2
        simpa [receive_loop, hrun, nonemptyDatagram, failingDatagram,
          List.filter] using h3
      · have hpe : p.isEmpty = false := by
          cases p with
          | nil => simp at hp
          | cons a l => rfl
        cases hcb : cb (utf8DecodeIgnore p) with
        | ok u =>
          have h3 := ih { s with
            messages_received := s.messages_received + 1,
            bytes_received := s.bytes_received + p.length } hrun hos2
          have hloop : receive_loop cb (RecvEvent.datagram p :: rest) s =
              receive_loop cb rest { s with
                messages_received := s.messages_received + 1,
                bytes_received := s.bytes_received + p.length } := by
            simp [receive_loop, hrun, hp, hcb]
          rw [hloop]
          refine ⟨h3.1, ?_, ?_⟩
          · rw [h3.2.1]
            simp [List.filter, nonemptyDatagram, hpe]
            omega
          · rw [h3.2.2]
            simp [List.filter, failingDatagram, hpe, hcb]
        | error e =>
          have h3 := ih { s with
            messages_received := s.messages_received + 1,
            bytes_received := s.bytes_received + p.length,
            error_count := s.error_count + 1 } hrun hos2
          have hloop : receive_loop cb (RecvEvent.datagram p :: rest) s =
              receive_loop cb rest { s with
                messages_received := s.messages_received + 1,
                bytes_received := s.bytes_received + p.length,
                error_count := s.error_count + 1 } := by
            simp [receive_loop, hrun, hp, hcb]
          rw [hloop]
          refine ⟨h3.1, ?_, ?_⟩
          · rw [h3.2.1]
            simp [List.filter, nonemptyDatagram, hpe]
            omega
          · rw [h3.2.2]
            simp [List.filter, failingDatagram, hpe, hcb]
            omega

/-- C9 witness: a trace of two datagrams where the callback raises on
the first; both datagrams are counted and one error is recorded. -/
theorem claims_C9_witness :
    freshReceiver.running = true ∧
    RecvEvent.oserror ∉ witnessEvents ∧
    ((receive_loop witnessCallback witnessEvents freshReceiver).running =
        true ∧
     (receive_loop witnessCallback witnessEvents
         freshReceiver).messages_received =
       freshReceiver.messages_received +
         (witnessEvents.filter nonemptyDatagram).length ∧
     (receive_loop witnessCallback witnessEvents
         freshReceiver).error_count =
       freshReceiver.error_count +
         (witnessEvents.filter (failingDatagram witnessCallback)).length) :=
  ⟨rfl, by decide,
   claims_C9 witnessCallback witnessEvents freshReceiver rfl (by decide)⟩

/-- C10: when an identifier occurs in several parsed pairs, the data
dict of `process_message` contains it exactly once, its position is the
first occurrence (the key order of the dict is the first-occurrence
order of the parsed identifiers), its value is that of the last
occurrence (dict lookup equals lookup in the reversed pair list), and
the dict is never larger than the pair list; on the concrete input
`a=1 b=5 a=2` the three parsed pairs become two output pairs with `a`
first and carrying 2. -/
theorem claims_C10 (ps : List (String × Dec)) (k : String)
    (hdup : 2 ≤ (ps.map Prod.fst).count k) :
    (dictKeys (dictOfPairs ps)).count k = 1 ∧
    pylookup k (dictOfPairs ps) = pylookup k ps.reverse ∧
    dictKeys (dictOfPairs ps) = firstOccur (ps.map Prod.fst) ∧
    (dictOfPairs ps).length ≤ ps.length ∧
    process_message identitySettings "a=1\r\nb=5\r\na=2\r\n" =
      ("a=2\r\nb=5\r\n", some ⟨0, []⟩) ∧
    (findallKV "a=1\r\nb=5\r\na=2\r\n").length = 3 ∧
    (dictOfPairs (findallKV "a=1\r\nb=5\r\na=2\r\n")).length = 2 := by
  refine ⟨?_, pylookup_dictOfPairs ps k, dictKeys_dictOfPairs ps,
    dictOfPairs_length_le ps, by decide, by decide, by decide⟩
  have hmem : k ∈ ps.map Prod.fst := by
    by_contra hmm
    rw [List.count_eq_zero_of_not_mem hmm] at hdup
    omega
  have hmem2 : k ∈ dictKeys (dictOfPairs ps) := by
    rw [dictKeys_dictOfPairs]
    exact (mem_firstOccur _ k).mpr hmem
  exact List.count_eq_one_of_mem (dictOfPairs_nodup ps) hmem2

/-- C10 witness: the pair list with `a` occurring twice. -/
theorem claims_C10_witness :
    2 ≤ ([("a", (⟨1, 0⟩ : Dec)), ("b", ⟨5, 0⟩),
          ("a", ⟨2, 0⟩)].map Prod.fst).count "a" ∧
    (dictKeys (dictOfPairs [("a", (⟨1, 0⟩ : Dec)), ("b", ⟨5, 0⟩),
        ("a", ⟨2, 0⟩)])).count "a" = 1 :=
  ⟨by decide,
   (claims_C10 [("a", ⟨1, 0⟩), ("b", ⟨5, 0⟩), ("a", ⟨2, 0⟩)] "a"
     (by decide)).1⟩

end CondorUDP
